import Mathlib

/-!
Shallow embedding of `src/main.py` (FastChart): the aggregation and
chart-geometry engine.

Modelling conventions:
- Python floats are modelled as exact extended rationals (`PyFloat`):
  IEEE rounding is abstracted away, while the special values `inf`,
  `-inf` and `nan` are explicit constructors with Python's arithmetic
  and comparison behaviour.
- Record field values are modelled by `Scalar` (number, string or
  `None`), the cases exercised by the engine; a `Record` is a
  string-keyed association list, standing for a Python `dict` (keys
  are unique and insertion order is preserved).
- `dict`-based accumulation (`buckets`, `result`) is modelled by
  insertion-ordered association lists.
- SVG string assembly is presentation: each generator is modelled as
  producing the list of structured primitives whose numeric fields are
  exactly the values the Python code interpolates into the markup
  (text annotations such as axis labels are omitted).
- A Python statement that raises an uncaught exception is modelled by
  `Option.none` in the function's result.
-/

set_option autoImplicit false

namespace FastChart

/-- Python float values: an exact rational, an infinity, or nan. -/
inductive PyFloat where
  | fin : ℚ → PyFloat
  | pinf : PyFloat
  | ninf : PyFloat
  | nan : PyFloat
deriving DecidableEq, Repr

namespace PyFloat

def isFinite : PyFloat → Bool
  | fin _ => true
  | _ => false

/-- Rational measurement of a float; non-finite values are sent to 0.
Only used in theorem statements, under finiteness hypotheses. -/
def toRat : PyFloat → ℚ
  | fin q => q
  | _ => 0

/-- Python truthiness of a float: only a zero is falsy; `inf` and
`nan` are truthy. -/
def truthy : PyFloat → Bool
  | fin q => q != 0
  | _ => true

def neg : PyFloat → PyFloat
  | fin a => fin (-a)
  | pinf => ninf
  | ninf => pinf
  | nan => nan

end PyFloat

/-- `x or d` on a Python float `x`: `x` if truthy, else `d`. -/
def pyOr (x d : PyFloat) : PyFloat := if x.truthy then x else d

/-- Python float addition, with IEEE special-value rules. -/
def pyAdd : PyFloat → PyFloat → PyFloat
  | .fin a, .fin b => .fin (a + b)
  | .nan, _ => .nan
  | _, .nan => .nan
  | .pinf, .ninf => .nan
  | .ninf, .pinf => .nan
  | .pinf, _ => .pinf
  | _, .pinf => .pinf
  | .ninf, _ => .ninf
  | _, .ninf => .ninf

/-- Python float subtraction: `x - y = x + (-y)`. -/
def pySub (x y : PyFloat) : PyFloat := pyAdd x y.neg

/-- Python float multiplication, with IEEE special-value rules
(`inf * 0.0 = nan`). -/
def pyMul : PyFloat → PyFloat → PyFloat
  | .fin a, .fin b => .fin (a * b)
  | .nan, _ => .nan
  | _, .nan => .nan
  | .pinf, .pinf => .pinf
  | .pinf, .ninf => .ninf
  | .ninf, .pinf => .ninf
  | .ninf, .ninf => .pinf
  | .pinf, .fin b => if b = 0 then .nan else if 0 < b then .pinf else .ninf
  | .fin a, .pinf => if a = 0 then .nan else if 0 < a then .pinf else .ninf
  | .ninf, .fin b => if b = 0 then .nan else if 0 < b then .ninf else .pinf
  | .fin a, .ninf => if a = 0 then .nan else if 0 < a then .ninf else .pinf

/-- Python float division. A zero divisor raises `ZeroDivisionError` in
Python; in this development every divisor has passed through `or 1`, so
that case is unreachable and the `nan` it returns here is never
produced. A finite value divided by an infinity is a zero (signed
zeros collapse to the single 0 of `ℚ`). -/
def pyDiv : PyFloat → PyFloat → PyFloat
  | .fin a, .fin b => if b = 0 then .nan else .fin (a / b)
  | .nan, _ => .nan
  | _, .nan => .nan
  | .pinf, .pinf => .nan
  | .pinf, .ninf => .nan
  | .ninf, .pinf => .nan
  | .ninf, .ninf => .nan
  | .fin _, .pinf => .fin 0
  | .fin _, .ninf => .fin 0
  | .pinf, .fin b => if b = 0 then .nan else if 0 < b then .pinf else .ninf
  | .ninf, .fin b => if b = 0 then .nan else if 0 < b then .ninf else .pinf

/-- Python `<` on floats: any comparison against `nan` is false. -/
def pyLt : PyFloat → PyFloat → Bool
  | .fin a, .fin b => decide (a < b)
  | .nan, _ => false
  | _, .nan => false
  | .pinf, _ => false
  | .ninf, .ninf => false
  | .ninf, _ => true
  | .fin _, .pinf => true
  | .fin _, .ninf => false

/-- Python `>=` on floats: any comparison against `nan` is false. -/
def pyGe : PyFloat → PyFloat → Bool
  | .fin a, .fin b => decide (b ≤ a)
  | .nan, _ => false
  | _, .nan => false
  | .pinf, _ => true
  | _, .pinf => false
  | _, .ninf => true
  | .ninf, _ => false

/-- Python `sum(vals)`: left fold of `+` starting at `0`. -/
def pySum (vals : List PyFloat) : PyFloat := vals.foldl pyAdd (.fin 0)

/-- Python `min(vals)`: first element, replaced whenever a later
element compares `<` the current one; `min([])` raises `ValueError`
(modelled by `none`). -/
def pyMinList : List PyFloat → Option PyFloat
  | [] => none
  | v :: rest => some (rest.foldl (fun cur x => if pyLt x cur then x else cur) v)

/-- Python `max(vals)`: first element, replaced whenever a later
element compares `>` the current one; `max([])` raises `ValueError`
(modelled by `none`). -/
def pyMaxList : List PyFloat → Option PyFloat
  | [] => none
  | v :: rest => some (rest.foldl (fun cur x => if pyLt cur x then x else cur) v)

/-- Division of a float by a record count, used for the mean.
`n = 0` is unreachable here (`statistics.mean` is only called on a
non-empty list). -/
def pyDivNat (x : PyFloat) (n : ℕ) : PyFloat :=
  match x with
  | .fin q => if n = 0 then .nan else .fin (q / n)
  | .pinf => .pinf
  | .ninf => .ninf
  | .nan => .nan

/-- `statistics.mean(vals)`: exact sum divided by the count;
infinities and nans propagate through the sum. -/
def pyMean (vals : List PyFloat) : PyFloat := pyDivNat (pySum vals) vals.length

/-- Numeric value of a non-empty digit string. -/
def natOfDigits (cs : List Char) : ℕ :=
  cs.foldl (fun acc c => 10 * acc + (c.toNat - 48)) 0

/-- Decimal literal after the optional sign: digits with an optional
single dot (`"10"`, `"1.5"`, `"1."`, `".5"`). `none` where Python
`float` raises `ValueError`. -/
def parseDecimal (cs : List Char) : Option ℚ :=
  let intPart := cs.takeWhile (fun c => c ≠ '.')
  match cs.dropWhile (fun c => c ≠ '.') with
  | [] =>
      if intPart ≠ [] ∧ intPart.all Char.isDigit then
        some (natOfDigits intPart : ℚ)
      else none
  | _ :: frac =>
      if (intPart ≠ [] ∨ frac ≠ []) ∧ intPart.all Char.isDigit ∧
          frac.all Char.isDigit ∧ ¬ frac.contains '.' then
        some ((natOfDigits intPart : ℚ) + (natOfDigits frac : ℚ) / (10 ^ frac.length : ℚ))
      else none

/-- Whitespace stripped by Python `float` around a numeric string. -/
def isPySpace (c : Char) : Bool :=
  c = ' ' ∨ c = '\t' ∨ c = '\n' ∨ c = '\r' ∨ c = '\x0b' ∨ c = '\x0c'

/-- Strip leading and trailing whitespace from a character list. -/
def stripEnds (cs : List Char) : List Char :=
  ((cs.dropWhile isPySpace).reverse.dropWhile isPySpace).reverse

/-- ASCII lowercasing of one character. -/
def asciiLower (c : Char) : Char :=
  if 65 ≤ c.toNat ∧ c.toNat ≤ 90 then Char.ofNat (c.toNat + 32) else c

/-- Models Python `float(s)` on a string: surrounding whitespace is
stripped, then an optional sign, then a decimal literal or one of the
special spellings `inf`, `infinity`, `nan` (case-insensitive).
Exponent notation and underscore digit separators are not exercised by
this development and are omitted. `none` models `ValueError`. -/
def parseFloat (s : String) : Option PyFloat :=
  let signed : Bool × List Char :=
    match stripEnds s.toList with
    | '-' :: rest => (true, rest)
    | '+' :: rest => (false, rest)
    | cs => (false, cs)
  let lower := signed.2.map asciiLower
  if lower = ['i', 'n', 'f'] ∨ lower = ['i', 'n', 'f', 'i', 'n', 'i', 't', 'y'] then
    some (if signed.1 then .ninf else .pinf)
  else if lower = ['n', 'a', 'n'] then
    some .nan
  else
    (parseDecimal signed.2).map (fun q => .fin (if signed.1 then -q else q))

/-- A record field value: the scalar kinds the engine distinguishes. -/
inductive Scalar where
  | num : ℚ → Scalar
  | str : String → Scalar
  | null : Scalar
deriving DecidableEq, Repr

/-- Python truthiness of a scalar: `None`, `0` and `""` are falsy. -/
def Scalar.truthy : Scalar → Bool
  | .num q => q != 0
  | .str s => s != ""
  | .null => false

/-- A data record: a string-keyed mapping (Python `Dict[str, Any]`). -/
abbrev Record : Type := List (String × Scalar)

inductive ChartType where
  | pie | bar | column | line
deriving DecidableEq, Repr

inductive Calculation where
  | count | sum | average | min | max
deriving DecidableEq, Repr

/-- `ChartDefinition` (src/main.py lines 14-20). -/
structure ChartDefinition where
  title : String := ""
  type : ChartType
  calculation : Calculation
  field : String
  label_field : Option String
  colors : Option (List String) := none
deriving DecidableEq, Repr

/-- Line 35: `key = item.get(chart.label_field) or "Unknown"`.
`item.get(None)` is `None` on a string-keyed dict, and `x or y`
returns `y` whenever `x` is falsy. -/
def getLabelKey (labelField : Option String) (item : Record) : Scalar :=
  match labelField.bind (fun f => List.lookup f item) with
  | some v => if v.truthy then v else .str "Unknown"
  | none => .str "Unknown"

/-- Lines 36-40: `raw = item.get(chart.field, 0)` then `float(raw)`
with a bare `except` yielding `0.0` (also catching `float(None)`). -/
def coerceVal (item : Record) (field : String) : PyFloat :=
  match List.lookup field item with
  | none => .fin 0
  | some (.num q) => .fin q
  | some (.null) => .fin 0
  | some (.str s) => (parseFloat s).getD (.fin 0)

/-- Line 41: `buckets.setdefault(key, []).append(val)` on an
insertion-ordered dict of lists. -/
def addToBuckets (bs : List (Scalar × List PyFloat)) (k : Scalar) (v : PyFloat) :
    List (Scalar × List PyFloat) :=
  match bs with
  | [] => [(k, [v])]
  | (k', vs) :: rest =>
      if k' = k then (k', vs ++ [v]) :: rest else (k', vs) :: addToBuckets rest k v

/-- Lines 33-41: one pass over the records, bucketing coerced values
by label key in first-seen order. -/
def buildBuckets (chart : ChartDefinition) (data : List Record) :
    List (Scalar × List PyFloat) :=
  data.foldl
    (fun bs item =>
      addToBuckets bs (getLabelKey chart.label_field item) (coerceVal item chart.field))
    []

/-- Lines 44-54: reduce one bucket's values by the chart's calculation.
The `if vals else 0` guards in the source are modelled by the `none`
branches (a bucket is in fact never empty). -/
def reduceVals (c : Calculation) (vals : List PyFloat) : PyFloat :=
  match c with
  | .count => .fin vals.length
  | .sum => pySum vals
  | .average => match vals with | [] => .fin 0 | _ :: _ => pyMean vals
  | .min => match pyMinList vals with | some m => m | none => .fin 0
  | .max => match pyMaxList vals with | some m => m | none => .fin 0

/-- `aggregate(data, chart)` (lines 32-55): ordered label-to-value pairs. -/
def aggregate (data : List Record) (chart : ChartDefinition) :
    List (Scalar × PyFloat) :=
  (buildBuckets chart data).map (fun p => (p.1, reduceVals chart.calculation p.2))

/-- Line 59: the 5-entry default palette. -/
def DEFAULT_COLORS : List String :=
  ["#4CAF50", "#FF9800", "#2196F3", "#F44336", "#9C27B0"]

/-- `colors[idx % len(colors)]`: `none` models the `ZeroDivisionError`
Python raises when `colors` is empty (`idx % 0`). -/
def colorAt (colors : List String) (idx : ℕ) : Option String :=
  if colors.length = 0 then none else colors[idx % colors.length]?

/-- A pie wedge: the angles (as fractions of a full turn) accumulated
by `gen_pie_svg`; the emitted path's arc endpoints are cos/sin of
these angles (presentation). -/
structure Wedge where
  startFrac : PyFloat
  endFrac : PyFloat
  large : ℕ
  color : String
deriving DecidableEq, Repr

/-- The loop of `gen_pie_svg` (lines 63-80): carries the running start
angle and the color index. -/
def pieWedges (colors : List String) (total : PyFloat) :
    List (Scalar × PyFloat) → PyFloat → ℕ → Option (List Wedge)
  | [], _, _ => some []
  | (_, val) :: rest, start, idx =>
    let frac := pyDiv val total
    let stop := pyAdd start frac
    let large : ℕ := if pyGe frac (.fin (1/2)) then 1 else 0
    match colorAt colors idx with
    | none => none
    | some c =>
      match pieWedges colors total rest stop (idx + 1) with
      | none => none
      | some ws => some ({ startFrac := start, endFrac := stop, large := large, color := c } :: ws)

/-- `gen_pie_svg` (lines 61-81): `total = sum(agg.values()) or 1`,
then one wedge per label in order. -/
def gen_pie_svg (agg : List (Scalar × PyFloat)) (colors : List String) :
    Option (List Wedge) :=
  let total := pyOr (pySum (agg.map Prod.snd)) (.fin 1)
  pieWedges colors total agg (.fin 0) 0

/-- A bar of `gen_bar_svg`: `x = 0` and `height = 20` are constants;
`y` is the running cross-axis offset, `w = (val/maxv)*200`. The
`<text>` annotation (label and value) is presentation and omitted. -/
structure BarRect where
  y : ℕ
  w : PyFloat
  color : String
deriving DecidableEq, Repr

/-- The loop of `gen_bar_svg` (lines 85-94). -/
def barRects (colors : List String) (maxv : PyFloat) :
    List (Scalar × PyFloat) → ℕ → ℕ → Option (List BarRect)
  | [], _, _ => some []
  | (_, val) :: rest, idx, y =>
    let w := pyMul (pyDiv val maxv) (.fin 200)
    match colorAt colors idx with
    | none => none
    | some c =>
      match barRects colors maxv rest (idx + 1) (y + 30) with
      | none => none
      | some rs => some ({ y := y, w := w, color := c } :: rs)

/-- `gen_bar_svg` (lines 83-96): `maxv = max(agg.values()) or 1`.
`max()` of an empty sequence raises `ValueError` (modelled by `none`),
before the `or 1` guard can apply. -/
def gen_bar_svg (agg : List (Scalar × PyFloat)) (colors : List String) :
    Option (List BarRect) :=
  match pyMaxList (agg.map Prod.snd) with
  | none => none
  | some m => barRects colors (pyOr m (.fin 1)) agg 0 0

/-- A column of `gen_column_svg`: `width = 30` is constant; `x` is the
running offset, `h = (val/maxv)*150` and `y = 150 - h`. The `<text>`
annotation is presentation and omitted. -/
structure ColRect where
  x : ℕ
  y : PyFloat
  h : PyFloat
  color : String
deriving DecidableEq, Repr

/-- The loop of `gen_column_svg` (lines 100-109). -/
def colRects (colors : List String) (maxv : PyFloat) :
    List (Scalar × PyFloat) → ℕ → ℕ → Option (List ColRect)
  | [], _, _ => some []
  | (_, val) :: rest, idx, x =>
    let h := pyMul (pyDiv val maxv) (.fin 150)
    match colorAt colors idx with
    | none => none
    | some c =>
      match colRects colors maxv rest (idx + 1) (x + 50) with
      | none => none
      | some rs => some ({ x := x, y := pySub (.fin 150) h, h := h, color := c } :: rs)

/-- `gen_column_svg` (lines 98-111): `maxv = max(agg.values()) or 1`;
`max()` of an empty sequence raises `ValueError` (modelled by `none`). -/
def gen_column_svg (agg : List (Scalar × PyFloat)) (colors : List String) :
    Option (List ColRect) :=
  match pyMaxList (agg.map Prod.snd) with
  | none => none
  | some m => colRects colors (pyOr m (.fin 1)) agg 0 0

/-- A circle of `gen_line_svg` (`r = 4` is constant). The x-coordinate
`200 * idx / (n-1 if n>1 else 1)` is always an exact rational. -/
structure LineCircle where
  x : ℚ
  y : PyFloat
  color : String
deriving DecidableEq, Repr

/-- A line segment of `gen_line_svg` connecting consecutive points. -/
structure LineSeg where
  x1 : ℚ
  y1 : PyFloat
  x2 : ℚ
  y2 : PyFloat
  color : String
deriving DecidableEq, Repr

/-- The point loop of `gen_line_svg` (lines 117-122):
`x = 200 * idx / d` and `y = 150 - (val/maxv)*150`. -/
def linePts (maxv : PyFloat) (d : ℕ) :
    List (Scalar × PyFloat) → ℕ → List (ℚ × PyFloat)
  | [], _ => []
  | (_, val) :: rest, idx =>
    ((200 * idx : ℚ) / (d : ℚ), pySub (.fin 150) (pyMul (pyDiv val maxv) (.fin 150)))
      :: linePts maxv d rest (idx + 1)

/-- Lines 126-128: one segment per consecutive pair of points. -/
def lineSegs (c : String) : List (ℚ × PyFloat) → List LineSeg
  | p :: q :: rest =>
      { x1 := p.1, y1 := p.2, x2 := q.1, y2 := q.2, color := c } :: lineSegs c (q :: rest)
  | _ => []

/-- `gen_line_svg` (lines 113-144): `maxv = max(agg.values()) or 1`
(`max([])` raises `ValueError`, modelled by `none`); every segment and
circle is drawn with `colors[0]` (an `IndexError` on an empty palette,
modelled by `none`; the access only runs when there is at least one
point, which holds whenever `max` did not raise). The x-axis `<text>`
labels are presentation and omitted. -/
def gen_line_svg (agg : List (Scalar × PyFloat)) (colors : List String) :
    Option (List LineSeg × List LineCircle) :=
  match pyMaxList (agg.map Prod.snd) with
  | none => none
  | some m =>
    let maxv := pyOr m (.fin 1)
    let n := agg.length
    let d : ℕ := if n > 1 then n - 1 else 1
    let pts := linePts maxv d agg 0
    match colors[0]? with
    | none => none
    | some c => some (lineSegs c pts, pts.map (fun p => { x := p.1, y := p.2, color := c }))

/-- The four chart kinds of primitive lists `render_chart` can emit. -/
inductive RenderedChart where
  | pieChart : List Wedge → RenderedChart
  | barChart : List BarRect → RenderedChart
  | columnChart : List ColRect → RenderedChart
  | lineChart : List LineSeg × List LineCircle → RenderedChart
deriving DecidableEq, Repr

/-- Line 150: `colors = chart.colors or DEFAULT_COLORS` (both `None`
and the empty list are falsy). -/
def effectiveColors (chart : ChartDefinition) : List String :=
  match chart.colors with
  | some cs => if cs = [] then DEFAULT_COLORS else cs
  | none => DEFAULT_COLORS

/-- `render_chart` (lines 148-168): aggregate, pick the palette, then
dispatch on the chart type. The surrounding HTML wrapper is
presentation; the `else` branch of the dispatch is unreachable because
`type` is one of the four literals. -/
def render_chart (chart : ChartDefinition) (data : List Record) :
    Option RenderedChart :=
  let agg := aggregate data chart
  let colors := effectiveColors chart
  match chart.type with
  | .pie => (gen_pie_svg agg colors).map .pieChart
  | .bar => (gen_bar_svg agg colors).map .barChart
  | .column => (gen_column_svg agg colors).map .columnChart
  | .line => (gen_line_svg agg colors).map .lineChart

/-- Spec-side definition, written from the spec's words for comparison
with `gen_pie_svg`: for each value in order, a wedge spanning
`[cumulativeSoFar, cumulativeSoFar + value/total)` of a full turn, the
cumulative angle carrying forward additively. -/
def specPieAngles (total : ℚ) : List ℚ → ℚ → List (ℚ × ℚ)
  | [], _ => []
  | v :: rest, cum => (cum, cum + v / total) :: specPieAngles total rest (cum + v / total)

/-- The color cycle `palette[i mod palette.length]` for `n` indices
starting at `start`; used to state the color-assignment claims. -/
def cycleColors (colors : List String) (start n : ℕ) : List String :=
  (List.range n).map (fun i => colors.getD ((start + i) % colors.length) "")

end FastChart

namespace FastChart

/-! ### Helper lemmas -/

theorem colorAt_eq (colors : List String) (idx : ℕ) (hc : colors ≠ []) :
    colorAt colors idx = some (colors.getD (idx % colors.length) "") := by
  have hlen : colors.length ≠ 0 := fun h => hc (List.length_eq_zero.mp h)
  have hlt : idx % colors.length < colors.length := Nat.mod_lt _ (Nat.pos_of_ne_zero hlen)
  simp [colorAt, hlen, List.getElem?_eq_getElem hlt, List.getD_eq_getElem?_getD]

theorem cycleColors_succ (colors : List String) (start n : ℕ) :
    cycleColors colors start (n + 1) =
      colors.getD (start % colors.length) "" :: cycleColors colors (start + 1) n := by
  simp only [cycleColors, List.range_succ_eq_map, List.map_cons, List.map_map]
  refine congrArg₂ _ (by simp) (List.map_congr_left ?_)
  intro i _
  simp only [Function.comp_apply]
  have h : start + (i + 1) = start + 1 + i := by omega
  rw [h]

theorem pieWedges_colors (colors : List String) (hc : colors ≠ []) (total : PyFloat) :
    ∀ (agg : List (Scalar × PyFloat)) (start : PyFloat) (idx : ℕ),
      ∃ ws, pieWedges colors total agg start idx = some ws ∧
        ws.map Wedge.color = cycleColors colors idx agg.length := by
  intro agg
  induction agg with
  | nil =>
    intro start idx
    exact ⟨[], rfl, by simp [cycleColors]⟩
  | cons p rest ih =>
    intro start idx
    obtain ⟨l, val⟩ := p
    obtain ⟨ws, hws, hcol⟩ := ih (pyAdd start (pyDiv val total)) (idx + 1)
    refine ⟨{ startFrac := start, endFrac := pyAdd start (pyDiv val total),
              large := if pyGe (pyDiv val total) (.fin (1/2)) then 1 else 0,
              color := colors.getD (idx % colors.length) "" } :: ws, ?_, ?_⟩
    · simp only [pieWedges]
      rw [colorAt_eq colors idx hc, hws]
    · simp only [List.map_cons, List.length_cons, cycleColors_succ, hcol]

theorem barRects_colors (colors : List String) (hc : colors ≠ []) (maxv : PyFloat) :
    ∀ (agg : List (Scalar × PyFloat)) (idx y : ℕ),
      ∃ rs, barRects colors maxv agg idx y = some rs ∧
        rs.map BarRect.color = cycleColors colors idx agg.length := by
  intro agg
  induction agg with
  | nil =>
    intro idx y
    exact ⟨[], rfl, by simp [cycleColors]⟩
  | cons p rest ih =>
    intro idx y
    obtain ⟨l, val⟩ := p
    obtain ⟨rs, hrs, hcol⟩ := ih (idx + 1) (y + 30)
    refine ⟨{ y := y, w := pyMul (pyDiv val maxv) (.fin 200),
              color := colors.getD (idx % colors.length) "" } :: rs, ?_, ?_⟩
    · simp only [barRects]
      rw [colorAt_eq colors idx hc, hrs]
    · simp only [List.map_cons, List.length_cons, cycleColors_succ, hcol]

theorem colRects_colors (colors : List String) (hc : colors ≠ []) (maxv : PyFloat) :
    ∀ (agg : List (Scalar × PyFloat)) (idx x : ℕ),
      ∃ rs, colRects colors maxv agg idx x = some rs ∧
        rs.map ColRect.color = cycleColors colors idx agg.length := by
  intro agg
  induction agg with
  | nil =>
    intro idx x
    exact ⟨[], rfl, by simp [cycleColors]⟩
  | cons p rest ih =>
    intro idx x
    obtain ⟨l, val⟩ := p
    obtain ⟨rs, hrs, hcol⟩ := ih (idx + 1) (x + 50)
    refine ⟨{ x := x, y := pySub (.fin 150) (pyMul (pyDiv val maxv) (.fin 150)),
              h := pyMul (pyDiv val maxv) (.fin 150),
              color := colors.getD (idx % colors.length) "" } :: rs, ?_, ?_⟩
    · simp only [colRects]
      rw [colorAt_eq colors idx hc, hrs]
    · simp only [List.map_cons, List.length_cons, cycleColors_succ, hcol]

theorem gen_line_svg_cons (p : Scalar × PyFloat) (rest : List (Scalar × PyFloat))
    (c : String) (cs : List String) :
    gen_line_svg (p :: rest) (c :: cs)
      = some
          (lineSegs c
            (linePts
              (pyOr ((rest.map Prod.snd).foldl (fun cur x => if pyLt cur x then x else cur) p.2)
                (.fin 1))
              (if (p :: rest).length > 1 then (p :: rest).length - 1 else 1) (p :: rest) 0),
           (linePts
              (pyOr ((rest.map Prod.snd).foldl (fun cur x => if pyLt cur x then x else cur) p.2)
                (.fin 1))
              (if (p :: rest).length > 1 then (p :: rest).length - 1 else 1) (p :: rest) 0).map
             (fun q => ({ x := q.1, y := q.2, color := c } : LineCircle))) := by
  simp only [gen_line_svg, List.map_cons, pyMaxList, List.getElem?_cons_zero]

theorem lineSegs_color (c : String) :
    ∀ (pts : List (ℚ × PyFloat)), ∀ s ∈ lineSegs c pts, s.color = c := by
  intro pts
  induction pts with
  | nil => intro s hs; simp [lineSegs] at hs
  | cons p rest ih =>
    intro s hs
    cases rest with
    | nil => simp [lineSegs] at hs
    | cons q rest2 =>
      simp only [lineSegs, List.mem_cons] at hs
      rcases hs with h | h
      · subst h; rfl
      · exact ih s h

theorem foldl_pyAdd_fin :
    ∀ (vals : List PyFloat) (a : ℚ), (∀ v ∈ vals, v.isFinite = true) →
      vals.foldl pyAdd (.fin a) = .fin (a + (vals.map PyFloat.toRat).sum) := by
  intro vals
  induction vals with
  | nil => intro a _; simp
  | cons v rest ih =>
    intro a hfin
    obtain ⟨q, rfl⟩ : ∃ q, v = PyFloat.fin q := by
      cases v <;> simp_all [PyFloat.isFinite]
    simp only [List.foldl_cons, pyAdd]
    rw [ih (a + q) (fun x hx => hfin x (List.mem_cons_of_mem _ hx))]
    simp only [List.map_cons, List.sum_cons, PyFloat.toRat]
    ring_nf

theorem pySum_fin (vals : List PyFloat) (hfin : ∀ v ∈ vals, v.isFinite = true) :
    pySum vals = .fin ((vals.map PyFloat.toRat).sum) := by
  unfold pySum
  rw [foldl_pyAdd_fin vals 0 hfin, zero_add]

/-! ### Claim C1 -/

/-- C1: for an empty record set the aggregation is empty; `gen_pie_svg`
then yields an empty primitive list, but `gen_bar_svg`, `gen_column_svg`
and `gen_line_svg` raise `ValueError` (`max()` of an empty sequence),
contradicting the claim that every kind yields an empty list without
error. `render_chart` propagates the error for bar, column and line. -/
theorem C1_empty_dataset :
    aggregate [] { type := .bar, calculation := .count, field := "amt", label_field := none } = [] ∧
    (∀ colors, gen_pie_svg [] colors = some []) ∧
    gen_bar_svg [] DEFAULT_COLORS = none ∧
    gen_column_svg [] DEFAULT_COLORS = none ∧
    gen_line_svg [] DEFAULT_COLORS = none ∧
    render_chart { type := .pie, calculation := .count, field := "amt", label_field := none } []
      = some (.pieChart []) ∧
    render_chart { type := .bar, calculation := .count, field := "amt", label_field := none } []
      = none ∧
    render_chart { type := .column, calculation := .count, field := "amt", label_field := none } []
      = none ∧
    render_chart { type := .line, calculation := .count, field := "amt", label_field := none } []
      = none :=
  ⟨rfl, fun _ => rfl, rfl, rfl, rfl, rfl, rfl, rfl, rfl⟩

/-! ### Claim C4 -/

/-- C4: the scenario `[{city:"A",amt:"10"},{city:"B",amt:"bad"},{city:"A",amt:"5"}]`
with labelField `city`, valueField `amt`, calculation `sum` aggregates to
exactly `[("A",15),("B",0)]` in that order: `"bad"` coerces to 0 and its
record stays in group B. -/
theorem C4_sum_scenario :
    aggregate
      [[("city", Scalar.str "A"), ("amt", Scalar.str "10")],
       [("city", Scalar.str "B"), ("amt", Scalar.str "bad")],
       [("city", Scalar.str "A"), ("amt", Scalar.str "5")]]
      { type := .bar, calculation := .sum, field := "amt", label_field := some "city" }
    = [(.str "A", .fin 15), (.str "B", .fin 0)] := by
  with_unfolding_all decide

/-! ### Claim C10 -/

/-- C10: `render_chart` substitutes the 5-entry default palette whenever
`colors` is `None` or the empty list (both falsy), so the palette every
generator receives is non-empty. -/
theorem C10_default_palette (chart : ChartDefinition) :
    ((chart.colors = none ∨ chart.colors = some []) → effectiveColors chart = DEFAULT_COLORS) ∧
    effectiveColors chart ≠ [] ∧ DEFAULT_COLORS.length = 5 := by
  refine ⟨?_, ?_, rfl⟩
  · rintro (h | h) <;> simp [effectiveColors, h]
  · cases h : chart.colors with
    | none => simp [effectiveColors, h, DEFAULT_COLORS]
    | some cs =>
      by_cases hcs : cs = [] <;> simp [effectiveColors, h, hcs, DEFAULT_COLORS]

/-- Witness for C10 at a concrete chart with `colors = none`. -/
theorem C10_witness :
    effectiveColors { type := .pie, calculation := .count, field := "f", label_field := none }
        = DEFAULT_COLORS ∧
    effectiveColors { type := .pie, calculation := .count, field := "f", label_field := none }
        ≠ [] :=
  ⟨(C10_default_palette _).1 (Or.inl rfl), (C10_default_palette _).2.1⟩

/-! ### Claim C2 -/

/-- C2 counterexample: a line chart with two labels and the palette
`["red", "blue"]` colors the point at position 1 with `"red"`
(`colors[0]`), while the claim demands `palette[1 mod 2] = "blue"`. -/
theorem C2_counterexample :
    gen_line_svg [(.str "A", .fin 1), (.str "B", .fin 2)] ["red", "blue"]
      = some ([{ x1 := 0, y1 := .fin 75, x2 := 200, y2 := .fin 0, color := "red" }],
              [{ x := 0, y := .fin 75, color := "red" },
               { x := 200, y := .fin 0, color := "red" }]) ∧
    ["red", "blue"].getD (1 % 2) "" = "blue" ∧ ("red" : String) ≠ "blue" := by
  refine ⟨?_, by decide, by decide⟩
  with_unfolding_all decide

/-- C2 amended: pie, bar and column assign the label at position `i`
the color `palette[i mod palette.length]` (palettes shorter than the
label count cycle); the line generator instead colors every segment
and every point with `palette[0]`. -/
theorem C2_color_cycling (agg : List (Scalar × PyFloat)) (colors : List String)
    (hc : colors ≠ []) :
    (∃ ws, gen_pie_svg agg colors = some ws ∧
       ws.map Wedge.color = cycleColors colors 0 agg.length) ∧
    (agg ≠ [] → ∃ rs, gen_bar_svg agg colors = some rs ∧
       rs.map BarRect.color = cycleColors colors 0 agg.length) ∧
    (agg ≠ [] → ∃ rs, gen_column_svg agg colors = some rs ∧
       rs.map ColRect.color = cycleColors colors 0 agg.length) ∧
    (agg ≠ [] → ∃ c segs circs, colors[0]? = some c ∧
       gen_line_svg agg colors = some (segs, circs) ∧
       (∀ s ∈ segs, s.color = c) ∧ (∀ p ∈ circs, p.color = c)) := by
  refine ⟨?_, ?_, ?_, ?_⟩
  · exact pieWedges_colors colors hc _ agg (.fin 0) 0
  · intro hne
    obtain ⟨p, rest, rfl⟩ := List.exists_cons_of_ne_nil hne
    obtain ⟨rs, hrs, hcol⟩ := barRects_colors colors hc
      (pyOr ((List.map Prod.snd rest).foldl (fun cur x => if pyLt cur x then x else cur) p.2)
        (.fin 1)) (p :: rest) 0 0
    exact ⟨rs, by simp only [gen_bar_svg, List.map_cons, pyMaxList]; exact hrs, hcol⟩
  · intro hne
    obtain ⟨p, rest, rfl⟩ := List.exists_cons_of_ne_nil hne
    obtain ⟨rs, hrs, hcol⟩ := colRects_colors colors hc
      (pyOr ((List.map Prod.snd rest).foldl (fun cur x => if pyLt cur x then x else cur) p.2)
        (.fin 1)) (p :: rest) 0 0
    exact ⟨rs, by simp only [gen_column_svg, List.map_cons, pyMaxList]; exact hrs, hcol⟩
  · intro hne
    obtain ⟨p, rest, rfl⟩ := List.exists_cons_of_ne_nil hne
    obtain ⟨c, cs, rfl⟩ := List.exists_cons_of_ne_nil hc
    refine ⟨c, _, _, by simp, gen_line_svg_cons p rest c cs, lineSegs_color c _, ?_⟩
    intro pt hpt
    obtain ⟨q, _, rfl⟩ := List.mem_map.mp hpt
    rfl

/-- Witness for C2 amended: 3 labels, 2 colors. -/
theorem C2_witness :
    (∃ ws, gen_pie_svg [(Scalar.str "A", PyFloat.fin 1), (Scalar.str "B", PyFloat.fin 1),
         (Scalar.str "C", PyFloat.fin 2)] ["red", "blue"] = some ws ∧
       ws.map Wedge.color = cycleColors ["red", "blue"] 0
         [(Scalar.str "A", PyFloat.fin 1), (Scalar.str "B", PyFloat.fin 1),
          (Scalar.str "C", PyFloat.fin 2)].length) ∧
    ([(Scalar.str "A", PyFloat.fin 1), (Scalar.str "B", PyFloat.fin 1),
      (Scalar.str "C", PyFloat.fin 2)] ≠ ([] : List (Scalar × PyFloat)) →
      ∃ rs, gen_bar_svg [(Scalar.str "A", PyFloat.fin 1), (Scalar.str "B", PyFloat.fin 1),
          (Scalar.str "C", PyFloat.fin 2)] ["red", "blue"] = some rs ∧
        rs.map BarRect.color = cycleColors ["red", "blue"] 0
          [(Scalar.str "A", PyFloat.fin 1), (Scalar.str "B", PyFloat.fin 1),
           (Scalar.str "C", PyFloat.fin 2)].length) ∧
    ([(Scalar.str "A", PyFloat.fin 1), (Scalar.str "B", PyFloat.fin 1),
      (Scalar.str "C", PyFloat.fin 2)] ≠ ([] : List (Scalar × PyFloat)) →
      ∃ rs, gen_column_svg [(Scalar.str "A", PyFloat.fin 1), (Scalar.str "B", PyFloat.fin 1),
          (Scalar.str "C", PyFloat.fin 2)] ["red", "blue"] = some rs ∧
        rs.map ColRect.color = cycleColors ["red", "blue"] 0
          [(Scalar.str "A", PyFloat.fin 1), (Scalar.str "B", PyFloat.fin 1),
           (Scalar.str "C", PyFloat.fin 2)].length) ∧
    ([(Scalar.str "A", PyFloat.fin 1), (Scalar.str "B", PyFloat.fin 1),
      (Scalar.str "C", PyFloat.fin 2)] ≠ ([] : List (Scalar × PyFloat)) →
      ∃ c segs circs, (["red", "blue"] : List String)[0]? = some c ∧
        gen_line_svg [(Scalar.str "A", PyFloat.fin 1), (Scalar.str "B", PyFloat.fin 1),
          (Scalar.str "C", PyFloat.fin 2)] ["red", "blue"] = some (segs, circs) ∧
        (∀ s ∈ segs, s.color = c) ∧ (∀ p ∈ circs, p.color = c)) :=
  C2_color_cycling
    [(Scalar.str "A", PyFloat.fin 1), (Scalar.str "B", PyFloat.fin 1),
     (Scalar.str "C", PyFloat.fin 2)] ["red", "blue"] (by decide)

/-! ### Claim C3 -/

/-- C3 counterexample: a record whose `city` field is present with the
non-null value `""` is grouped under `"Unknown"`, because line 35 uses
Python `or`, which discards every falsy label; the claim demands the
empty string itself be the group key. -/
theorem C3_counterexample :
    getLabelKey (some "city") [("city", Scalar.str "")] = .str "Unknown" ∧
    Scalar.str "Unknown" ≠ Scalar.str "" ∧
    aggregate [[("city", Scalar.str "")]]
      { type := .pie, calculation := .count, field := "amt", label_field := some "city" }
      = [(.str "Unknown", .fin 1)] := by
  refine ⟨by decide, by decide, ?_⟩
  with_unfolding_all decide

/-- C3 amended: the grouping key is the record's `labelField` value
whenever that value is present and truthy (non-null, non-zero, non-empty);
a missing field, an unset `labelField`, and every falsy value (`None`,
`0`, `""`) fall back to the literal `"Unknown"`. The key a record
contributes to `aggregate` is exactly `getLabelKey`. -/
theorem C3_grouping_key (lf : Option String) (item : Record) :
    ((∃ f v, lf = some f ∧ List.lookup f item = some v ∧ v.truthy = true ∧
        getLabelKey lf item = v) ∨
     (getLabelKey lf item = .str "Unknown" ∧
        ∀ f v, lf = some f → List.lookup f item = some v → v.truthy = false)) ∧
    ∀ chart : ChartDefinition,
      (aggregate [item] chart).map Prod.fst = [getLabelKey chart.label_field item] := by
  constructor
  · cases lf with
    | none =>
      right
      refine ⟨rfl, ?_⟩
      intro f v h
      exact absurd h (by simp)
    | some f =>
      cases h : List.lookup f item with
      | none =>
        right
        refine ⟨by simp [getLabelKey, h], ?_⟩
        intro f' v hf hv
        obtain rfl : f = f' := Option.some_inj.mp hf
        rw [h] at hv
        exact absurd hv (by simp)
      | some v =>
        cases hv : v.truthy with
        | true =>
          left
          exact ⟨f, v, rfl, h, hv, by simp [getLabelKey, h, hv]⟩
        | false =>
          right
          refine ⟨by simp [getLabelKey, h, hv], ?_⟩
          intro f' v' hf hv'
          obtain rfl : f = f' := Option.some_inj.mp hf
          rw [h] at hv'
          obtain rfl : v = v' := Option.some_inj.mp hv'
          exact hv
  · intro chart
    rfl

/-- Witness for C3 amended at a record whose label value is falsy. -/
theorem C3_witness :
    ((∃ f v, (some "city" : Option String) = some f ∧
        List.lookup f [("city", Scalar.str "")] = some v ∧ v.truthy = true ∧
        getLabelKey (some "city") [("city", Scalar.str "")] = v) ∨
     (getLabelKey (some "city") [("city", Scalar.str "")] = .str "Unknown" ∧
        ∀ f v, (some "city" : Option String) = some f →
          List.lookup f [("city", Scalar.str "")] = some v → v.truthy = false)) ∧
    ∀ chart : ChartDefinition,
      (aggregate [[("city", Scalar.str "")]] chart).map Prod.fst
        = [getLabelKey chart.label_field [("city", Scalar.str "")]] :=
  C3_grouping_key (some "city") [("city", Scalar.str "")]

/-! ### Claim C8 -/

/-- C8 counterexample: a single-label line chart puts its one point at
`x = 0` (the formula `200 * 0 / 1`), not at the midpoint `100` of the
reference width 200 that the claim demands. -/
theorem C8_counterexample :
    gen_line_svg [(.str "A", .fin 5)] DEFAULT_COLORS
      = some ([], [{ x := 0, y := .fin 0, color := "#4CAF50" }]) ∧
    (0 : ℚ) ≠ 100 := by
  refine ⟨?_, by norm_num⟩
  with_unfolding_all decide

/-- C8 amended: for a single-label aggregation the line generator emits
exactly one point, whose x-coordinate is 0 (the left edge, from
`200 * 0 / 1`), and zero segments. -/
theorem C8_single_label_line (l : Scalar) (v : PyFloat) (colors : List String)
    (hc : colors ≠ []) :
    ∃ pt, gen_line_svg [(l, v)] colors = some ([], [pt]) ∧ pt.x = 0 := by
  obtain ⟨c, cs, rfl⟩ := List.exists_cons_of_ne_nil hc
  refine ⟨{ x := 0, y := pySub (.fin 150) (pyMul (pyDiv v (pyOr v (.fin 1))) (.fin 150)),
            color := c }, ?_, rfl⟩
  simp only [gen_line_svg, List.map_cons, List.map_nil, pyMaxList, List.foldl_nil,
    List.length_cons, List.length_nil, linePts, lineSegs, List.getElem?_cons_zero]
  norm_num

/-- Witness for C8 amended. -/
theorem C8_witness :
    ∃ pt, gen_line_svg [(Scalar.str "A", PyFloat.fin 5)] DEFAULT_COLORS
      = some ([], [pt]) ∧ pt.x = 0 :=
  C8_single_label_line (Scalar.str "A") (PyFloat.fin 5) DEFAULT_COLORS (by decide)

/-! ### Claims C5 and C6: pie geometry -/

/-- Each wedge built by `pieWedges` over finite values with a finite
non-zero total carries exactly the cumulative spec angles, and its
large-arc-flag is 1 exactly when its span is at least half a turn. -/
theorem pieWedges_fin (colors : List String) (hc : colors ≠ []) (t : ℚ) (ht : t ≠ 0) :
    ∀ (agg : List (Scalar × PyFloat)) (s : ℚ) (idx : ℕ),
      (∀ v ∈ agg.map Prod.snd, v.isFinite = true) →
      ∃ ws, pieWedges colors (.fin t) agg (.fin s) idx = some ws ∧
        ws.map (fun w => (w.startFrac, w.endFrac)) =
          (specPieAngles t (agg.map (fun p => p.2.toRat)) s).map
            (fun p => (PyFloat.fin p.1, PyFloat.fin p.2)) ∧
        ∀ w ∈ ws, (w.large = 1 ↔ (1/2 : ℚ) ≤ w.endFrac.toRat - w.startFrac.toRat) := by
  intro agg
  induction agg with
  | nil =>
    intro s idx _
    exact ⟨[], rfl, by simp [specPieAngles], by simp⟩
  | cons p rest ih =>
    intro s idx hfin
    obtain ⟨l, val⟩ := p
    obtain ⟨q, rfl⟩ : ∃ q, val = PyFloat.fin q := by
      have := hfin val (by simp)
      cases val <;> simp_all [PyFloat.isFinite]
    obtain ⟨ws, hws, hpairs, hlarge⟩ :=
      ih (s + q / t) (idx + 1) (fun v hv => hfin v (by simp [hv]))
    have hstep : pieWedges colors (.fin t) ((l, PyFloat.fin q) :: rest) (.fin s) idx =
        some ({ startFrac := .fin s, endFrac := .fin (s + q / t),
                large := if (1/2 : ℚ) ≤ q / t then 1 else 0,
                color := colors.getD (idx % colors.length) "" } :: ws) := by
      simp only [pieWedges]
      rw [colorAt_eq colors idx hc]
      simp [pyDiv, ht, pyAdd, pyGe, hws]
    refine ⟨{ startFrac := .fin s, endFrac := .fin (s + q / t),
              large := if (1/2 : ℚ) ≤ q / t then 1 else 0,
              color := colors.getD (idx % colors.length) "" } :: ws, ?_, ?_, ?_⟩
    · exact hstep
    · simp only [List.map_cons, specPieAngles, PyFloat.toRat, hpairs]
    · intro w hw
      rcases List.mem_cons.mp hw with rfl | hw
    -- the head wedge: span is q / t
      · simp only [PyFloat.toRat]
        have hspan : s + q / t - s = q / t := by ring
        rw [hspan]
        by_cases h : (1/2 : ℚ) ≤ q / t <;> simp [h]
      · exact hlarge w hw

/-- Sum of the spec-side wedge spans: `(sum of values) / total`. -/
theorem specPieAngles_spans (t : ℚ) :
    ∀ (vals : List ℚ) (cum : ℚ),
      ((specPieAngles t vals cum).map (fun p => p.2 - p.1)).sum = vals.sum / t := by
  intro vals
  induction vals with
  | nil => intro cum; simp [specPieAngles]
  | cons v rest ih =>
    intro cum
    simp only [specPieAngles, List.map_cons, List.sum_cons, ih, List.sum_cons, add_div]
    ring

/-- Pulling a constant factor out of a list sum. -/
theorem sum_map_mul_const {α : Type} (c : ℚ) (f : α → ℚ) :
    ∀ l : List α, (l.map (fun x => c * f x)).sum = c * (l.map f).sum := by
  intro l
  induction l with
  | nil => simp
  | cons x xs ih => simp [ih, mul_add]

/-- With all-finite values and a finite non-zero total, the `or 1`
guard leaves the total unchanged. -/
theorem pie_total_fin (agg : List (Scalar × PyFloat)) (t : ℚ)
    (hfin : ∀ v ∈ agg.map Prod.snd, v.isFinite = true)
    (ht : (agg.map (fun p => p.2.toRat)).sum = t) (htne : t ≠ 0) :
    pyOr (pySum (agg.map Prod.snd)) (.fin 1) = .fin t := by
  rw [pySum_fin _ hfin, List.map_map]
  have hmap : agg.map (PyFloat.toRat ∘ Prod.snd) = agg.map (fun p => p.2.toRat) := rfl
  rw [hmap, ht]
  simp [pyOr, PyFloat.truthy, htne]

/-- C5: over a non-empty aggregation of finite values with positive
total, the pie wedges carry exactly the cumulative spec angles
`[cum, cum + value/total)` in insertion order, and the spans (scaled
to degrees) sum to exactly 360. -/
theorem C5_pie_cumulative_angles (agg : List (Scalar × PyFloat)) (colors : List String)
    (t : ℚ) (hc : colors ≠ [])
    (hfin : ∀ v ∈ agg.map Prod.snd, v.isFinite = true)
    (ht : (agg.map (fun p => p.2.toRat)).sum = t) (hpos : 0 < t) :
    ∃ ws, gen_pie_svg agg colors = some ws ∧
      ws.map (fun w => (w.startFrac, w.endFrac)) =
        (specPieAngles t (agg.map (fun p => p.2.toRat)) 0).map
          (fun p => (PyFloat.fin p.1, PyFloat.fin p.2)) ∧
      (ws.map (fun w => 360 * (w.endFrac.toRat - w.startFrac.toRat))).sum = 360 := by
  have htne : t ≠ 0 := ne_of_gt hpos
  obtain ⟨ws, h1, h2, _⟩ := pieWedges_fin colors hc t htne agg 0 0 hfin
  have h3 : ws.map (fun w => w.endFrac.toRat - w.startFrac.toRat)
      = (specPieAngles t (agg.map (fun p => p.2.toRat)) 0).map (fun p => p.2 - p.1) := by
    have h4 := congrArg (List.map (fun p : PyFloat × PyFloat => p.2.toRat - p.1.toRat)) h2
    rw [List.map_map, List.map_map] at h4
    exact h4
  refine ⟨ws, ?_, h2, ?_⟩
  · simp only [gen_pie_svg]
    rw [pie_total_fin agg t hfin ht htne]
    exact h1
  · rw [sum_map_mul_const 360 (fun w => w.endFrac.toRat - w.startFrac.toRat) ws, h3,
      specPieAngles_spans, ht, div_self htne, mul_one]

/-- Witness for C5 at the aggregation `[("A",1),("B",3)]`, total 4. -/
theorem C5_witness :
    ∃ ws, gen_pie_svg [(Scalar.str "A", PyFloat.fin 1), (Scalar.str "B", PyFloat.fin 3)]
        ["x", "y"] = some ws ∧
      ws.map (fun w => (w.startFrac, w.endFrac)) =
        (specPieAngles 4
          ([(Scalar.str "A", PyFloat.fin 1), (Scalar.str "B", PyFloat.fin 3)].map
            (fun p => p.2.toRat)) 0).map
          (fun p => (PyFloat.fin p.1, PyFloat.fin p.2)) ∧
      (ws.map (fun w => 360 * (w.endFrac.toRat - w.startFrac.toRat))).sum = 360 :=
  C5_pie_cumulative_angles
    [(Scalar.str "A", PyFloat.fin 1), (Scalar.str "B", PyFloat.fin 3)] ["x", "y"] 4
    (by decide) (by decide) (by with_unfolding_all decide) (by norm_num)

/-- C6 counterexample: two equal values give the first wedge a span of
exactly half a turn (180 degrees), and the source's `frac >= .5` test
emits large-arc-flag 1 for it, where the claim demands 0. -/
theorem C6_counterexample :
    gen_pie_svg [(.str "A", .fin 1), (.str "B", .fin 1)] ["c"]
      = some [{ startFrac := .fin 0, endFrac := .fin (1/2), large := 1, color := "c" },
              { startFrac := .fin (1/2), endFrac := .fin 1, large := 1, color := "c" }] ∧
    (360 : ℚ) * ((PyFloat.fin (1/2)).toRat - (PyFloat.fin 0).toRat) = 180 := by
  constructor
  · with_unfolding_all decide
  · norm_num [PyFloat.toRat]

/-- C6 amended: a wedge's large-arc-flag is 1 exactly when its angular
span is at least 180 degrees (the source tests `frac >= .5`), so a
wedge of exactly 180 degrees gets flag 1, not 0. -/
theorem C6_large_arc_flag (agg : List (Scalar × PyFloat)) (colors : List String)
    (t : ℚ) (hc : colors ≠ [])
    (hfin : ∀ v ∈ agg.map Prod.snd, v.isFinite = true)
    (ht : (agg.map (fun p => p.2.toRat)).sum = t) (htne : t ≠ 0) :
    ∃ ws, gen_pie_svg agg colors = some ws ∧
      ∀ w ∈ ws, (w.large = 1 ↔ 180 ≤ 360 * (w.endFrac.toRat - w.startFrac.toRat)) := by
  obtain ⟨ws, h1, _, hlarge⟩ := pieWedges_fin colors hc t htne agg 0 0 hfin
  refine ⟨ws, ?_, ?_⟩
  · simp only [gen_pie_svg]
    rw [pie_total_fin agg t hfin ht htne]
    exact h1
  · intro w hw
    rw [hlarge w hw]
    constructor <;> intro h <;> linarith

/-- Witness for C6 amended at the half-and-half aggregation. -/
theorem C6_witness :
    ∃ ws, gen_pie_svg [(Scalar.str "A", PyFloat.fin 2), (Scalar.str "B", PyFloat.fin 2)]
        ["c"] = some ws ∧
      ∀ w ∈ ws, (w.large = 1 ↔ 180 ≤ 360 * (w.endFrac.toRat - w.startFrac.toRat)) :=
  C6_large_arc_flag [(Scalar.str "A", PyFloat.fin 2), (Scalar.str "B", PyFloat.fin 2)]
    ["c"] 4 (by decide) (by decide) (by with_unfolding_all decide) (by norm_num)

/-! ### Claim C7 -/

/-- Appending one value to its bucket grows the total bucketed count
by one. -/
theorem addToBuckets_sizes (k : Scalar) (v : PyFloat) :
    ∀ bs : List (Scalar × List PyFloat),
      ((addToBuckets bs k v).map (fun p => p.2.length)).sum
        = (bs.map (fun p => p.2.length)).sum + 1 := by
  intro bs
  induction bs with
  | nil => simp [addToBuckets]
  | cons b rest ih =>
    obtain ⟨k2, vs⟩ := b
    by_cases h : k2 = k
    · simp only [addToBuckets, if_pos h, List.map_cons, List.sum_cons, List.length_append,
        List.length_cons, List.length_nil]
      omega
    · simp only [addToBuckets, if_neg h, List.map_cons, List.sum_cons, ih]
      omega

/-- The bucketing pass distributes every record into exactly one
bucket slot. -/
theorem buildBuckets_sizes (chart : ChartDefinition) :
    ∀ (data : List Record) (bs : List (Scalar × List PyFloat)),
      ((data.foldl (fun bs item =>
          addToBuckets bs (getLabelKey chart.label_field item) (coerceVal item chart.field))
          bs).map (fun p => p.2.length)).sum
        = (bs.map (fun p => p.2.length)).sum + data.length := by
  intro data
  induction data with
  | nil => intro bs; simp
  | cons item rest ih =>
    intro bs
    simp only [List.foldl_cons, List.length_cons]
    rw [ih, addToBuckets_sizes]
    omega

/-- C7: under `calculation = count` the values of the aggregation sum
to the number of input records — every record contributes exactly one
to its group. -/
theorem C7_count_total (data : List Record) (chart : ChartDefinition)
    (_hne : data ≠ []) (hcalc : chart.calculation = .count) :
    ((aggregate data chart).map (fun p => p.2.toRat)).sum = (data.length : ℚ) := by
  have h1 : (aggregate data chart).map (fun p => p.2.toRat)
      = (buildBuckets chart data).map (fun p => (p.2.length : ℚ)) := by
    simp only [aggregate, List.map_map, hcalc]
    rfl
  have h2 : ∀ l : List (Scalar × List PyFloat),
      (l.map (fun p => (p.2.length : ℚ))).sum
        = Nat.cast ((l.map (fun p => p.2.length)).sum) := by
    intro l
    induction l with
    | nil => simp
    | cons b rest ih => simp [ih]
  rw [h1, h2]
  norm_cast
  unfold buildBuckets
  rw [buildBuckets_sizes chart data []]
  simp

/-- Witness for C7 on three records in two groups. -/
theorem C7_witness :
    (([[("city", Scalar.str "A")], [("city", Scalar.str "B")], [("city", Scalar.str "A")]] :
        List Record) ≠ []) ∧
    ((aggregate [[("city", Scalar.str "A")], [("city", Scalar.str "B")], [("city", Scalar.str "A")]]
        { type := .pie, calculation := .count, field := "amt", label_field := some "city" }).map
      (fun p => p.2.toRat)).sum
      = (([[("city", Scalar.str "A")], [("city", Scalar.str "B")], [("city", Scalar.str "A")]] :
          List Record).length : ℚ) :=
  ⟨by decide, C7_count_total _ _ (by decide) rfl⟩

/-! ### Claim C9 -/

/-- C9 counterexample: the string `"inf"` passes `float()` and the sum
reduction propagates it, so the aggregation value for a record
`{amt: "inf"}` under `sum` is positive infinity — not finite. -/
theorem C9_counterexample :
    aggregate [[("amt", Scalar.str "inf")]]
      { type := .pie, calculation := .sum, field := "amt", label_field := none }
      = [(.str "Unknown", .pinf)] ∧
    PyFloat.pinf.isFinite = false := by
  refine ⟨?_, rfl⟩
  with_unfolding_all decide

/-- Every value in a bucket after one `setdefault`-append step is an
old bucketed value or the appended one. -/
theorem addToBuckets_mem (k : Scalar) (v : PyFloat) :
    ∀ (bs : List (Scalar × List PyFloat)) (kv : Scalar × List PyFloat),
      kv ∈ addToBuckets bs k v → ∀ x ∈ kv.2,
        (∃ kv2 ∈ bs, x ∈ kv2.2) ∨ x = v := by
  intro bs
  induction bs with
  | nil =>
    intro kv hkv x hx
    simp only [addToBuckets, List.mem_singleton] at hkv
    subst hkv
    simp only [List.mem_singleton] at hx
    exact Or.inr hx
  | cons b rest ih =>
    intro kv hkv x hx
    obtain ⟨k2, vs⟩ := b
    by_cases h : k2 = k
    · simp only [addToBuckets, if_pos h] at hkv
      rcases List.mem_cons.mp hkv with rfl | hkv2
      · rcases List.mem_append.mp hx with hx2 | hx2
        · exact Or.inl ⟨(k2, vs), List.mem_cons_self _ _, hx2⟩
        · exact Or.inr (List.mem_singleton.mp hx2)
      · exact Or.inl ⟨kv, List.mem_cons_of_mem _ hkv2, hx⟩
    · simp only [addToBuckets, if_neg h] at hkv
      rcases List.mem_cons.mp hkv with rfl | hkv2
      · exact Or.inl ⟨(k2, vs), List.mem_cons_self _ _, hx⟩
      · rcases ih kv hkv2 x hx with ⟨kv3, hkv3, hx2⟩ | hx2
        · exact Or.inl ⟨kv3, List.mem_cons_of_mem _ hkv3, hx2⟩
        · exact Or.inr hx2

/-- Bucketed values all satisfy a property preserved from the initial
buckets and enjoyed by every coerced record value. -/
theorem foldl_buckets_finite (chart : ChartDefinition) :
    ∀ (data : List Record) (bs : List (Scalar × List PyFloat)),
      (∀ kv ∈ bs, ∀ x ∈ kv.2, x.isFinite = true) →
      (∀ item ∈ data, (coerceVal item chart.field).isFinite = true) →
      ∀ kv ∈ data.foldl (fun bs item =>
          addToBuckets bs (getLabelKey chart.label_field item) (coerceVal item chart.field)) bs,
        ∀ x ∈ kv.2, x.isFinite = true := by
  intro data
  induction data with
  | nil => intro bs hbs _ kv hkv; exact hbs kv hkv
  | cons item rest ih =>
    intro bs hbs hdata kv hkv
    simp only [List.foldl_cons] at hkv
    refine ih _ ?_ (fun it hit => hdata it (List.mem_cons_of_mem _ hit)) kv hkv
    intro kv2 hkv2 y hy
    rcases addToBuckets_mem _ _ bs kv2 hkv2 y hy with ⟨kv3, hkv3, hy2⟩ | hy2
    · exact hbs kv3 hkv3 y hy2
    · rw [hy2]
      exact hdata item (List.mem_cons_self _ _)

/-- A fold that always keeps one of its two arguments lands on an
element of the start-value-and-list. -/
theorem foldl_choice_mem (g : PyFloat → PyFloat → PyFloat)
    (hg : ∀ a b, g a b = a ∨ g a b = b) :
    ∀ (l : List PyFloat) (v : PyFloat), l.foldl g v ∈ v :: l := by
  intro l
  induction l with
  | nil => intro v; simp
  | cons x xs ih =>
    intro v
    simp only [List.foldl_cons]
    rcases hg v x with h2 | h2 <;> rw [h2]
    · rcases List.mem_cons.mp (ih v) with h | h <;> simp [h]
    · rcases List.mem_cons.mp (ih x) with h | h <;> simp [h]

/-- Every reduction of an all-finite bucket is finite. -/
theorem reduceVals_finite (c : Calculation) (vals : List PyFloat)
    (hfin : ∀ x ∈ vals, x.isFinite = true) :
    (reduceVals c vals).isFinite = true := by
  cases c with
  | count => rfl
  | sum =>
    show (pySum vals).isFinite = true
    rw [pySum_fin vals hfin]
    rfl
  | average =>
    cases vals with
    | nil => rfl
    | cons v rest =>
      show (pyMean (v :: rest)).isFinite = true
      unfold pyMean
      rw [pySum_fin _ hfin]
      simp [pyDivNat, PyFloat.isFinite]
  | min =>
    cases vals with
    | nil => rfl
    | cons v rest =>
      have hmem : (rest.foldl (fun cur x => if pyLt x cur then x else cur) v) ∈ v :: rest :=
        foldl_choice_mem _
          (fun a b => by by_cases h : pyLt b a = true <;> simp [h]) rest v
      exact hfin _ hmem
  | max =>
    cases vals with
    | nil => rfl
    | cons v rest =>
      have hmem : (rest.foldl (fun cur x => if pyLt cur x then x else cur) v) ∈ v :: rest :=
        foldl_choice_mem _
          (fun a b => by by_cases h : pyLt a b = true <;> simp [h]) rest v
      exact hfin _ hmem

/-- C9 amended: every aggregation value is finite provided every
record's coerced `valueField` value is finite; value strings such as
`"inf"` or `"nan"` defeat the invariant (see the counterexample), so
the claim holds only under that finiteness proviso. `count` needs no
proviso over the raw values because it ignores them after coercion. -/
theorem C9_finite_values (data : List Record) (chart : ChartDefinition)
    (hfin : ∀ item ∈ data, (coerceVal item chart.field).isFinite = true) :
    ∀ p ∈ aggregate data chart, p.2.isFinite = true := by
  intro p hp
  simp only [aggregate, List.mem_map] at hp
  obtain ⟨kv, hkv, rfl⟩ := hp
  exact reduceVals_finite _ _
    (foldl_buckets_finite chart data [] (by simp) hfin kv hkv)

/-- Witness for C9 amended on records with parsable and junk strings. -/
theorem C9_witness :
    (∀ item ∈ ([[("amt", Scalar.str "2.5")], [("amt", Scalar.str "bad")]] : List Record),
      (coerceVal item "amt").isFinite = true) ∧
    ∀ p ∈ aggregate [[("amt", Scalar.str "2.5")], [("amt", Scalar.str "bad")]]
        { type := .pie, calculation := .sum, field := "amt", label_field := none },
      p.2.isFinite = true :=
  ⟨by with_unfolding_all decide,
   C9_finite_values _ _ (by with_unfolding_all decide)⟩

end FastChart
